import Mathlib

/-!
Shallow embedding of the scan–backup–transform–restore engine of
`src/app.py` (image_adjustment).  File and directory names are modelled as
lists of characters (Python strings are character sequences); file contents
are an abstract type `α`.  Fallible external operations (the copy to the
backup path and the PIL resize) are supplied by an explicit environment.
-/

/-- Python strings, modelled as lists of characters. -/
abbrev Str := List Char

/-- The backup-name separator literal `".backup_"` used throughout `app.py`. -/
def SEP : Str := ['.', 'b', 'a', 'c', 'k', 'u', 'p', '_']

/-- Model of Python s.startswith(pat): `startsWith pat s`. -/
def startsWith : Str → Str → Bool
  | [], _ => true
  | _ :: _, [] => false
  | p :: ps, c :: cs => p == c && startsWith ps cs

/-- Model of Python substring containment, pat in s: `containsSub pat s`. -/
def containsSub (pat : Str) : Str → Bool
  | [] => pat.isEmpty
  | c :: cs => startsWith pat (c :: cs) || containsSub pat cs

/-- Model of Python s.split(pat)[0]: the portion of `s`
strictly before the first occurrence of `pat` (all of `s` when `pat` does
not occur). -/
def splitHead (pat : Str) : Str → Str
  | [] => []
  | c :: cs => if startsWith pat (c :: cs) then [] else c :: splitHead pat cs

/-- Model of os.path.join(root, name) in the simple case exercised by `app.py`. -/
def pjoin (root fname : Str) : Str := root ++ '/' :: fname

/-- Model of os.path.basename: the portion after the last slash. -/
def basename (p : Str) : Str := (p.reverse.takeWhile (fun c => c != '/')).reverse

/-- BackupNamer construction (`app.py` line 63): the backup path is the
file path, then the separator, then the timestamp. -/
def name_for (n t : Str) : Str := n ++ SEP ++ t

/-- BackupNamer inversion (`app.py` line 157):
`original_name = file.split(".backup_")[0]`. -/
def original_from (b : Str) : Str := splitHead SEP b

/-! ### String lemmas -/

theorem startsWith_self_append (p r : Str) : startsWith p (p ++ r) = true := by
  induction p with
  | nil => rfl
  | cons c cs ih => simp [startsWith, ih]

theorem startsWith_append_of_le (pat s₁ s₂ : Str) (h : pat.length ≤ s₁.length) :
    startsWith pat (s₁ ++ s₂) = startsWith pat s₁ := by
  induction pat generalizing s₁ with
  | nil => rfl
  | cons p ps ih =>
    cases s₁ with
    | nil => exact absurd h (by simp)
    | cons c cs =>
      simp only [List.cons_append, startsWith, List.append_eq]
      rw [ih cs (by simpa using h)]

theorem startsWith_split (pat s₁ s₂ : Str) (h : s₁.length ≤ pat.length)
    (hs : startsWith pat (s₁ ++ s₂) = true) :
    startsWith s₁ pat = true ∧ startsWith (pat.drop s₁.length) s₂ = true := by
  induction s₁ generalizing pat with
  | nil => exact ⟨rfl, hs⟩
  | cons c cs ih =>
    cases pat with
    | nil => exact absurd h (by simp)
    | cons p ps =>
      simp only [List.cons_append, startsWith, Bool.and_eq_true, beq_iff_eq] at hs
      obtain ⟨hpc, hrest⟩ := hs
      have := ih ps (by simpa using h) hrest
      refine ⟨?_, by simpa using this.2⟩
      simp [startsWith, hpc, this.1]

theorem containsSub_of_startsWith (pat s : Str) (hp : pat ≠ [])
    (hs : startsWith pat s = true) : containsSub pat s = true := by
  cases s with
  | nil => cases pat with
    | nil => exact absurd rfl hp
    | cons p ps => simp [startsWith] at hs
  | cons c cs => simp [containsSub, hs]

theorem splitHead_of_startsWith (pat s : Str) (hp : pat ≠ [])
    (hs : startsWith pat s = true) : splitHead pat s = [] := by
  cases s with
  | nil => cases pat with
    | nil => exact absurd rfl hp
    | cons p ps => simp [startsWith] at hs
  | cons c cs => simp [splitHead, hs]

/-- The separator has no self-overlap: no nonempty proper suffix of `SEP`
is a prefix of `SEP`. -/
theorem sep_no_border : ∀ m : Fin 8, 1 ≤ m.1 → startsWith (SEP.drop m.1) SEP = false := by
  decide

/-- No occurrence of `SEP` can straddle the boundary in `n ++ SEP ++ t`
when `n` is nonempty and does not contain `SEP`. -/
theorem not_startsWith_sep (n t : Str) (hne : n ≠ [])
    (hc : containsSub SEP n = false) :
    startsWith SEP (n ++ (SEP ++ t)) = false := by
  by_contra hcon
  have hs : startsWith SEP (n ++ (SEP ++ t)) = true := by
    cases h : startsWith SEP (n ++ (SEP ++ t)) with
    | false => exact absurd h hcon
    | true => rfl
  rcases Nat.lt_or_ge n.length 8 with hlt | hge
  · -- short `n`: a straddling occurrence would give `SEP` a border
    have h1 : n.length ≤ SEP.length := by
      simpa [SEP] using Nat.le_of_lt hlt
    obtain ⟨-, h2⟩ := startsWith_split SEP n (SEP ++ t) h1 hs
    have hm1 : 1 ≤ n.length := by
      cases n with
      | nil => exact absurd rfl hne
      | cons a l => simp
    have hlen : (SEP.drop n.length).length ≤ SEP.length := by
      simp [List.length_drop]
    rw [startsWith_append_of_le _ _ _ hlen] at h2
    have := sep_no_border ⟨n.length, hlt⟩ hm1
    simp only at this
    rw [this] at h2
    exact Bool.false_ne_true h2
  · -- long `n`: `SEP` would occur inside `n`
    have h1 : SEP.length ≤ n.length := by simpa [SEP] using hge
    rw [startsWith_append_of_le _ _ _ h1] at hs
    have := containsSub_of_startsWith SEP n (by simp [SEP]) hs
    rw [hc] at this
    exact Bool.false_ne_true this

/-! ### Results: C2 -/

/-- C2: naming round-trip.  For every original name `n` that does not
contain the separator `".backup_"` and every timestamp `t`, splitting the
constructed backup name `n ++ ".backup_" ++ t` on the first occurrence of
the separator recovers `n` exactly: `original_from (name_for n t) = n`. -/
theorem c2_naming_round_trip (n t : Str) (hc : containsSub SEP n = false) :
    original_from (name_for n t) = n := by
  unfold original_from name_for
  rw [List.append_assoc]
  induction n with
  | nil =>
    exact splitHead_of_startsWith SEP (SEP ++ t) (by simp [SEP])
      (startsWith_self_append SEP t)
  | cons c cs ih =>
    have hc' : containsSub SEP cs = false := by
      simp only [containsSub, Bool.or_eq_false_iff] at hc
      exact hc.2
    have hns := not_startsWith_sep (c :: cs) t (by simp) hc
    simp only [List.cons_append] at hns
    simp only [List.cons_append, splitHead, List.append_eq]
    rw [hns]
    simp [ih hc']

/-- Witness for C2 at a concrete name and timestamp. -/
theorem c2_naming_round_trip_witness :
    original_from (name_for "photo.png".data "20240101120000".data) = "photo.png".data :=
  c2_naming_round_trip "photo.png".data "20240101120000".data (by decide)

/-! ### Association-list file store -/

/-- Look up a file by path in an association-list file store. -/
def lookupF {α : Type} : List (Str × α) → Str → Option α
  | [], _ => none
  | (k, v) :: r, n => if k = n then some v else lookupF r n

/-- Write a file: replace the entry if the path exists, append otherwise. -/
def insertF {α : Type} : List (Str × α) → Str → α → List (Str × α)
  | [], n, v => [(n, v)]
  | (k, w) :: r, n, v => if k = n then (n, v) :: r else (k, w) :: insertF r n v

/-- Delete every entry at the given path. -/
def removeKey {α : Type} : List (Str × α) → Str → List (Str × α)
  | [], _ => []
  | (k, w) :: r, n => if k = n then removeKey r n else (k, w) :: removeKey r n

theorem lookupF_insertF_self {α : Type} (l : List (Str × α)) (k : Str) (v : α) :
    lookupF (insertF l k v) k = some v := by
  induction l with
  | nil => simp [insertF, lookupF]
  | cons e r ih =>
    obtain ⟨a, w⟩ := e
    by_cases h : a = k
    · simp [insertF, h, lookupF]
    · simp [insertF, h, lookupF, ih]

theorem lookupF_insertF_ne {α : Type} (l : List (Str × α)) (k n : Str) (v : α)
    (h : k ≠ n) : lookupF (insertF l k v) n = lookupF l n := by
  induction l with
  | nil => simp [insertF, lookupF, h]
  | cons e r ih =>
    obtain ⟨a, w⟩ := e
    by_cases ha : a = k
    · simp [insertF, ha, lookupF, h]
    · simp only [insertF, if_neg ha, lookupF]
      by_cases hn : a = n
      · simp [hn]
      · simp [hn, ih]

theorem mem_fst_insertF {α : Type} (l : List (Str × α)) (k n : Str) (v : α) :
    n ∈ (insertF l k v).map Prod.fst ↔ n = k ∨ n ∈ l.map Prod.fst := by
  induction l with
  | nil => simp [insertF]
  | cons e r ih =>
    obtain ⟨a, w⟩ := e
    simp only [insertF]
    by_cases h : a = k
    · rw [if_pos h]
      subst h
      simp only [List.map_cons, List.mem_cons]
      tauto
    · rw [if_neg h]
      simp only [List.map_cons, List.mem_cons, ih]
      tauto

/-! ### RestoreEngine (`app.py` lines 166–191) -/

/-- A flat filesystem: paths mapped to contents. -/
abbrev FlatFS (α : Type) := List (Str × α)

/-- Error text for a missing source file (`FileNotFoundError`). -/
def fnfMsg (p : Str) : Str := "No such file or directory: ".data ++ p

/-- Error text for `shutil.SameFileError`. -/
def sameFileMsg (src dst : Str) : Str :=
  src ++ " and ".data ++ dst ++ " are the same file".data

/-- Model of shutil.copy2(src, dst): fails when `src` and `dst` are the same path
or when `src` does not exist; otherwise writes `src`'s content at `dst`. -/
def copy2 {α : Type} (fs : FlatFS α) (src dst : Str) : Except Str (FlatFS α) :=
  if src = dst then Except.error (sameFileMsg src dst)
  else
    match lookupF fs src with
    | none => Except.error (fnfMsg src)
    | some c => Except.ok (insertF fs dst c)

/-- Model of os.remove(p): fails when `p` does not exist; otherwise deletes it. -/
def osRemove {α : Type} (fs : FlatFS α) (p : Str) : Except Str (FlatFS α) :=
  match lookupF fs p with
  | none => Except.error (fnfMsg p)
  | some _ => Except.ok (removeKey fs p)

/-- One entry of the `files` payload of the `/restore` request. -/
structure RestoreItem where
  backup_path : Str
  original_path : Str

/-- The body of the `restore_files` loop (`app.py` lines 175–189): copy the
backup over the original, then delete the backup; any error yields
`restored = false` with the error text and leaves the remaining steps
unexecuted. Returns (filesystem, restored flag, log line). -/
def restoreItem {α : Type} (fs : FlatFS α) (it : RestoreItem) :
    FlatFS α × Bool × Str :=
  match copy2 fs it.backup_path it.original_path with
  | Except.error e =>
      (fs, false, "Error restoring ".data ++ it.backup_path ++ ": ".data ++ e)
  | Except.ok fs1 =>
      match osRemove fs1 it.backup_path with
      | Except.error e =>
          (fs1, false, "Error restoring ".data ++ it.backup_path ++ ": ".data ++ e)
      | Except.ok fs2 =>
          (fs2, true, "Restored & Deleted Backup: ".data ++ basename it.original_path)

/-- The `restore_files` handler (`app.py` lines 166–191): process the items in order,
counting the restored ones and collecting one log line per item. -/
def restore_files {α : Type} (fs : FlatFS α) :
    List RestoreItem → FlatFS α × Nat × List Str
  | [] => (fs, 0, [])
  | it :: rest =>
    let r := restoreItem fs it
    let o := restore_files r.1 rest
    (o.1, (if r.2.1 then 1 else 0) + o.2.1, r.2.2 :: o.2.2)

theorem restoreItem_copy_error {α : Type} (fs : FlatFS α) (it : RestoreItem) (e : Str)
    (hc : copy2 fs it.backup_path it.original_path = Except.error e) :
    restoreItem fs it =
      (fs, false, "Error restoring ".data ++ it.backup_path ++ ": ".data ++ e) := by
  unfold restoreItem
  rw [hc]

theorem restoreItem_remove_error {α : Type} (fs fs1 : FlatFS α) (it : RestoreItem) (e : Str)
    (hc : copy2 fs it.backup_path it.original_path = Except.ok fs1)
    (hr : osRemove fs1 it.backup_path = Except.error e) :
    restoreItem fs it =
      (fs1, false, "Error restoring ".data ++ it.backup_path ++ ": ".data ++ e) := by
  unfold restoreItem
  rw [hc]
  dsimp only
  rw [hr]

theorem restoreItem_both_ok {α : Type} (fs fs1 fs2 : FlatFS α) (it : RestoreItem)
    (hc : copy2 fs it.backup_path it.original_path = Except.ok fs1)
    (hr : osRemove fs1 it.backup_path = Except.ok fs2) :
    restoreItem fs it =
      (fs2, true, "Restored & Deleted Backup: ".data ++ basename it.original_path) := by
  unfold restoreItem
  rw [hc]
  dsimp only
  rw [hr]

/-! ### Results: C1 -/

/-- C1: the restore protocol for one item is copy-then-delete.  The item is
reported `restored = true` only when the copy of `backup_path` over
`original_path` succeeded AND the subsequent deletion of `backup_path`
succeeded; and when the copy step fails, the deletion is never attempted —
the filesystem is left entirely unchanged, so in particular the backup file
(whatever its state) is preserved on disk. -/
theorem c1_restore_protocol {α : Type} (fs : FlatFS α) (it : RestoreItem) :
    ((restoreItem fs it).2.1 = true →
      ∃ fs1, copy2 fs it.backup_path it.original_path = Except.ok fs1 ∧
        osRemove fs1 it.backup_path = Except.ok (restoreItem fs it).1) ∧
    (∀ e, copy2 fs it.backup_path it.original_path = Except.error e →
      (restoreItem fs it).1 = fs ∧ (restoreItem fs it).2.1 = false ∧
      lookupF (restoreItem fs it).1 it.backup_path = lookupF fs it.backup_path) := by
  cases hc : copy2 fs it.backup_path it.original_path with
  | error e =>
    rw [restoreItem_copy_error fs it e hc]
    exact ⟨fun h => absurd h (by simp), fun e2 he => ⟨rfl, rfl, rfl⟩⟩
  | ok fs1 =>
    cases hr : osRemove fs1 it.backup_path with
    | error e2 =>
      rw [restoreItem_remove_error fs fs1 it e2 hc hr]
      exact ⟨fun h => absurd h (by simp), fun e3 he => Except.noConfusion he⟩
    | ok fs2 =>
      rw [restoreItem_both_ok fs fs1 fs2 it hc hr]
      exact ⟨fun h => ⟨fs1, rfl, hr⟩, fun e3 he => Except.noConfusion he⟩

/-- Witness for C1: with an empty filesystem the copy step fails (the
backup is missing), the filesystem is unchanged and the item is not
reported restored. -/
theorem c1_restore_protocol_witness :
    (restoreItem ([] : FlatFS Nat) ⟨"/a/x.backup_1".data, "/a/x".data⟩).1 = [] ∧
    (restoreItem ([] : FlatFS Nat) ⟨"/a/x.backup_1".data, "/a/x".data⟩).2.1 = false ∧
    lookupF (restoreItem ([] : FlatFS Nat) ⟨"/a/x.backup_1".data, "/a/x".data⟩).1
        "/a/x.backup_1".data =
      lookupF ([] : FlatFS Nat) "/a/x.backup_1".data :=
  (c1_restore_protocol ([] : FlatFS Nat) ⟨"/a/x.backup_1".data, "/a/x".data⟩).2
    (fnfMsg "/a/x.backup_1".data) rfl

/-! ### BackupEngine scan (`app.py` lines 59–141) -/

/-- One directory visited by `os.walk`: its path and the files it holds. -/
structure DirEntry (α : Type) where
  path : Str
  files : List (Str × α)

/-- The tree below the scanned root, in `os.walk` visitation order. -/
abbrev FsTree (α : Type) := List (DirEntry α)

/-- The external environment of one scan: the wall clock read by
`datetime.now()` (indexed by the file being processed), the verdict of the
operating system on the backup copy (`shutil.copy2` may raise), and the
PIL resize capability (`Image.open`/`resize`/`save` may raise). -/
structure Env (α : Type) where
  ts : Str → Str
  copyErr : Str → Option Str
  resize : Int → Int → α → Except Str α

/-- The `process_image` helper (`app.py` lines 59–78) acting on the files of the
directory that holds the target: derive the backup name from the current
timestamp; in dry-run mode report success without touching anything;
otherwise copy the file to the backup path, then resize the original in
place, and report failure with the error text if either step raises.
Returns (success flag, message, directory files afterwards). -/
def process_image {α : Type} (env : Env α) (dirPath fname : Str)
    (files : List (Str × α)) (w h : Int) (dry_run : Bool) :
    Bool × Str × List (Str × α) :=
  let fullPath := pjoin dirPath fname
  let backupName := fname ++ SEP ++ env.ts fullPath
  if dry_run then
    (true, "[DRY RUN] Would backup to ".data ++ basename (pjoin dirPath backupName)
      ++ " and resize to ".data ++ (toString w).data ++ "x".data ++ (toString h).data,
      files)
  else
    match env.copyErr fullPath with
    | some e => (false, e, files)
    | none =>
      match lookupF files fname with
      | none => (false, fnfMsg fullPath, files)
      | some c =>
        let files1 := insertF files backupName c
        match env.resize w h c with
        | Except.error e => (false, e, files1)
        | Except.ok c2 =>
          (true, "Success (Backup: ".data ++ basename (pjoin dirPath backupName)
            ++ ")".data, insertF files1 fname c2)

/-- The membership test, target_filename in files (`app.py` line 104). -/
def hasMatch {α : Type} (target : Str) (d : DirEntry α) : Bool :=
  decide (target ∈ d.files.map Prod.fst)

/-- The existence check for a backup name next to the match (`app.py`
lines 108–109): some file of the same directory starts with the target
name followed by the separator. -/
def hasLocalBackup {α : Type} (target : Str) (d : DirEntry α) : Bool :=
  (d.files.map Prod.fst).any (fun f => startsWith (target ++ SEP) f)

/-- The body of the `os.walk` loop of `scan_and_resize` (`app.py` lines
103–130) for one visited directory: if the directory holds the target,
either skip it (a backup already lives next to it) or process it.
Returns (directory afterwards, log lines, found paths, processed count). -/
def scanStep {α : Type} (env : Env α) (target : Str) (w h : Int)
    (dry_run : Bool) (d : DirEntry α) : DirEntry α × List Str × List Str × Nat :=
  if hasMatch target d then
    let fullPath := pjoin d.path target
    if hasLocalBackup target d then
      (d, ["[SKIPPED] ".data ++ fullPath ++ " -> Skipped (Backup already exists)".data],
        [fullPath], 0)
    else
      let r := process_image env d.path target d.files w h dry_run
      ({ d with files := r.2.2 },
        [(if r.1 then "[OK] ".data else "[FAIL] ".data) ++ fullPath ++ " -> ".data ++ r.2.1],
        [fullPath], if r.1 then 1 else 0)
  else (d, [], [], 0)

/-- The aggregate of one scan: the tree afterwards, the ordered `details`
log, the `found_files` list and the `processed_count`. -/
structure WalkOut (α : Type) where
  tree : FsTree α
  logs : List Str
  found : List Str
  processed : Nat

/-- The full `os.walk` loop of `scan_and_resize` (`app.py` lines 96–130):
every directory of the tree is visited in order and contributes its
`scanStep` outcome. -/
def scanLoop {α : Type} (env : Env α) (target : Str) (w h : Int)
    (dry_run : Bool) : FsTree α → WalkOut α
  | [] => ⟨[], [], [], 0⟩
  | d :: rest =>
    let s := scanStep env target w h dry_run d
    let o := scanLoop env target w h dry_run rest
    ⟨s.1 :: o.tree, s.2.1 ++ o.logs, s.2.2.1 ++ o.found, s.2.2.2 + o.processed⟩

theorem scanLoop_append {α : Type} (env : Env α) (target : Str) (w h : Int)
    (dry_run : Bool) (t₁ t₂ : FsTree α) :
    scanLoop env target w h dry_run (t₁ ++ t₂) =
      ⟨(scanLoop env target w h dry_run t₁).tree ++ (scanLoop env target w h dry_run t₂).tree,
        (scanLoop env target w h dry_run t₁).logs ++ (scanLoop env target w h dry_run t₂).logs,
        (scanLoop env target w h dry_run t₁).found ++ (scanLoop env target w h dry_run t₂).found,
        (scanLoop env target w h dry_run t₁).processed
          + (scanLoop env target w h dry_run t₂).processed⟩ := by
  induction t₁ with
  | nil => simp [scanLoop]
  | cons d rest ih =>
    simp only [List.cons_append, scanLoop, ih]
    simp [ih, List.append_assoc, Nat.add_assoc]

theorem scanStep_no_match {α : Type} (env : Env α) (target : Str) (w h : Int)
    (dry_run : Bool) (d : DirEntry α) (hm : hasMatch target d = false) :
    scanStep env target w h dry_run d = (d, [], [], 0) := by
  unfold scanStep
  rw [hm]
  simp

theorem scanStep_skip {α : Type} (env : Env α) (target : Str) (w h : Int)
    (dry_run : Bool) (d : DirEntry α) (hm : hasMatch target d = true)
    (hb : hasLocalBackup target d = true) :
    scanStep env target w h dry_run d =
      (d, ["[SKIPPED] ".data ++ pjoin d.path target
            ++ " -> Skipped (Backup already exists)".data],
        [pjoin d.path target], 0) := by
  unfold scanStep
  rw [hm, hb]
  simp

theorem scanStep_process {α : Type} (env : Env α) (target : Str) (w h : Int)
    (dry_run : Bool) (d : DirEntry α) (hm : hasMatch target d = true)
    (hb : hasLocalBackup target d = false) :
    scanStep env target w h dry_run d =
      ({ d with files := (process_image env d.path target d.files w h dry_run).2.2 },
        [(if (process_image env d.path target d.files w h dry_run).1 then "[OK] ".data
            else "[FAIL] ".data)
          ++ pjoin d.path target ++ " -> ".data
          ++ (process_image env d.path target d.files w h dry_run).2.1],
        [pjoin d.path target],
        if (process_image env d.path target d.files w h dry_run).1 then 1 else 0) := by
  unfold scanStep
  rw [hm, hb]
  simp

/-! ### Results: C6 -/

/-- C6: the skip decision is directory-local.  For a directory holding the
target: if some file of that same directory starts with
`target ++ ".backup_"`, the outcome is a skip with the exact message
"Skipped (Backup already exists)", the full path is still counted among
the found files, nothing is processed and the directory is left untouched
— for every environment and also when `dry_run` is set; if no such file
exists in that directory the file is handed to `process_image` (an `[OK]`
or `[FAIL]` outcome, never a skip); and inside the full walk the
contribution of the directory is exactly its own `scanStep`, unaffected by
the rest of the tree, so a backup elsewhere never suppresses processing. -/
theorem c6_skip_directory_local {α : Type} (env : Env α) (target : Str)
    (w h : Int) (dry_run : Bool) (d : DirEntry α)
    (hm : hasMatch target d = true) :
    (hasLocalBackup target d = true →
      scanStep env target w h dry_run d =
        (d, ["[SKIPPED] ".data ++ pjoin d.path target
              ++ " -> Skipped (Backup already exists)".data],
          [pjoin d.path target], 0)) ∧
    (hasLocalBackup target d = false →
      scanStep env target w h dry_run d =
        ({ d with files := (process_image env d.path target d.files w h dry_run).2.2 },
          [(if (process_image env d.path target d.files w h dry_run).1 then "[OK] ".data
              else "[FAIL] ".data)
            ++ pjoin d.path target ++ " -> ".data
            ++ (process_image env d.path target d.files w h dry_run).2.1],
          [pjoin d.path target],
          if (process_image env d.path target d.files w h dry_run).1 then 1 else 0)) ∧
    (∀ t₁ t₂ : FsTree α,
      scanLoop env target w h dry_run (t₁ ++ d :: t₂) =
        ⟨(scanLoop env target w h dry_run t₁).tree
            ++ (scanStep env target w h dry_run d).1
              :: (scanLoop env target w h dry_run t₂).tree,
          (scanLoop env target w h dry_run t₁).logs
            ++ (scanStep env target w h dry_run d).2.1
            ++ (scanLoop env target w h dry_run t₂).logs,
          (scanLoop env target w h dry_run t₁).found
            ++ (scanStep env target w h dry_run d).2.2.1
            ++ (scanLoop env target w h dry_run t₂).found,
          (scanLoop env target w h dry_run t₁).processed
            + ((scanStep env target w h dry_run d).2.2.2
              + (scanLoop env target w h dry_run t₂).processed)⟩) := by
  refine ⟨fun hb => scanStep_skip env target w h dry_run d hm hb,
    fun hb => scanStep_process env target w h dry_run d hm hb, fun t₁ t₂ => ?_⟩
  rw [scanLoop_append]
  simp [scanLoop, List.append_assoc]

/-- A concrete environment in which every operation succeeds and the clock
always reads `"20240101120000"`. -/
def envW : Env Nat :=
  ⟨fun _ => "20240101120000".data, fun _ => none, fun _ _ c => Except.ok c⟩

/-- A concrete directory holding `photo.png` and a backup of it. -/
def dirW : DirEntry Nat :=
  ⟨"/a".data, [("photo.png".data, 1), ("photo.png.backup_20230101000000".data, 2)]⟩

/-- Witness for C6: in a directory that already holds a backup next to the
match, the step skips with the exact message, counts the file as found,
processes nothing and leaves the directory untouched. -/
theorem c6_skip_directory_local_witness :
    scanStep envW "photo.png".data 100 100 false dirW =
      (dirW, ["[SKIPPED] ".data ++ pjoin "/a".data "photo.png".data
            ++ " -> Skipped (Backup already exists)".data],
        [pjoin "/a".data "photo.png".data], 0) ∧
    scanLoop envW "photo.png".data 100 100 false ([] ++ dirW :: []) =
      ⟨(scanLoop envW "photo.png".data 100 100 false []).tree
          ++ (scanStep envW "photo.png".data 100 100 false dirW).1
            :: (scanLoop envW "photo.png".data 100 100 false []).tree,
        (scanLoop envW "photo.png".data 100 100 false []).logs
          ++ (scanStep envW "photo.png".data 100 100 false dirW).2.1
          ++ (scanLoop envW "photo.png".data 100 100 false []).logs,
        (scanLoop envW "photo.png".data 100 100 false []).found
          ++ (scanStep envW "photo.png".data 100 100 false dirW).2.2.1
          ++ (scanLoop envW "photo.png".data 100 100 false []).found,
        (scanLoop envW "photo.png".data 100 100 false []).processed
          + ((scanStep envW "photo.png".data 100 100 false dirW).2.2.2
            + (scanLoop envW "photo.png".data 100 100 false []).processed)⟩ :=
  ⟨(c6_skip_directory_local envW "photo.png".data 100 100 false dirW (by decide)).1
      (by decide),
    (c6_skip_directory_local envW "photo.png".data 100 100 false dirW
      (by decide)).2.2 [] []⟩

theorem scanStep_shape {α : Type} (env : Env α) (target : Str) (w h : Int)
    (dry_run : Bool) (d : DirEntry α) :
    (scanStep env target w h dry_run d).2.2.1.length
        = (scanStep env target w h dry_run d).2.1.length ∧
    (scanStep env target w h dry_run d).2.1.length
        = (if hasMatch target d then 1 else 0) ∧
    ∀ l ∈ (scanStep env target w h dry_run d).2.1,
      startsWith "[OK] ".data l = true ∨ startsWith "[SKIPPED] ".data l = true ∨
        startsWith "[FAIL] ".data l = true := by
  by_cases hm : hasMatch target d
  · by_cases hb : hasLocalBackup target d
    · rw [scanStep_skip env target w h dry_run d hm hb]
      refine ⟨rfl, by simp [hm], ?_⟩
      intro l hl
      simp only [List.mem_singleton] at hl
      subst hl
      refine Or.inr (Or.inl ?_)
      rw [List.append_assoc]
      exact startsWith_self_append _ _
    · rw [scanStep_process env target w h dry_run d hm
        (by cases h2 : hasLocalBackup target d with
          | true => exact absurd h2 hb
          | false => rfl)]
      refine ⟨rfl, by simp [hm], ?_⟩
      intro l hl
      simp only [List.mem_singleton] at hl
      subst hl
      cases hr : (process_image env d.path target d.files w h dry_run).1 with
      | true =>
        refine Or.inl ?_
        simp only [eq_self_iff_true, if_true, List.append_assoc]
        exact startsWith_self_append _ _
      | false =>
        refine Or.inr (Or.inr ?_)
        simp only [Bool.false_eq_true, if_false, List.append_assoc]
        exact startsWith_self_append _ _
  · rw [scanStep_no_match env target w h dry_run d
      (by cases h2 : hasMatch target d with
        | true => exact absurd h2 hm
        | false => rfl)]
    exact ⟨rfl, by simp [hm], fun l hl => absurd hl (by simp)⟩

/-! ### Results: C7 -/

/-- C7: failure isolation and one-entry-per-match.  For every tree, the
scan yields exactly one ordered log entry per directory holding the
target — so `files_found` (the length of `found_files`) always equals the
number of log entries — and every entry is tagged `[OK]`, `[SKIPPED]` or
`[FAIL]`; a failing file only contributes its own `[FAIL]` entry and the
walk of the remaining tree is unaffected. -/
theorem c7_failure_isolation {α : Type} (env : Env α) (target : Str)
    (w h : Int) (dry_run : Bool) (t : FsTree α) :
    (scanLoop env target w h dry_run t).found.length
        = (scanLoop env target w h dry_run t).logs.length ∧
    (scanLoop env target w h dry_run t).logs.length
        = (t.filter (fun d => hasMatch target d)).length ∧
    ∀ l ∈ (scanLoop env target w h dry_run t).logs,
      startsWith "[OK] ".data l = true ∨ startsWith "[SKIPPED] ".data l = true ∨
        startsWith "[FAIL] ".data l = true := by
  induction t with
  | nil => exact ⟨rfl, rfl, fun l hl => absurd hl (by simp [scanLoop])⟩
  | cons d rest ih =>
    obtain ⟨ih1, ih2, ih3⟩ := ih
    obtain ⟨s1, s2, s3⟩ := scanStep_shape env target w h dry_run d
    refine ⟨?_, ?_, ?_⟩
    · simp only [scanLoop, List.length_append]
      rw [ih1, s1]
    · simp only [scanLoop, List.length_append, List.filter_cons]
      by_cases hm : hasMatch target d
      · rw [if_pos hm] at s2
        simp only [hm, eq_self_iff_true, if_true, s2, ih2, List.length_cons]
        omega
      · rw [if_neg hm] at s2
        simp only [Bool.not_eq_true] at hm
        simp only [hm, Bool.false_eq_true, if_false, s2, ih2, List.length_cons]
        omega
    · intro l hl
      simp only [scanLoop, List.mem_append] at hl
      cases hl with
      | inl h => exact s3 l h
      | inr h => exact ih3 l h

/-- Witness for C7 on a concrete two-directory tree (one match that
processes, one directory without the target). -/
theorem c7_failure_isolation_witness :
    ((scanLoop envW "photo.png".data 100 100 false
        [⟨"/a".data, [("photo.png".data, 1)]⟩, ⟨"/b".data, [("other.png".data, 2)]⟩]).found.length
      = (scanLoop envW "photo.png".data 100 100 false
        [⟨"/a".data, [("photo.png".data, 1)]⟩, ⟨"/b".data, [("other.png".data, 2)]⟩]).logs.length) ∧
    ((scanLoop envW "photo.png".data 100 100 false
        [⟨"/a".data, [("photo.png".data, 1)]⟩, ⟨"/b".data, [("other.png".data, 2)]⟩]).logs.length
      = ([⟨"/a".data, [("photo.png".data, 1)]⟩, ⟨"/b".data, [("other.png".data, 2)]⟩].filter
          (fun d => hasMatch "photo.png".data d) |>.length) : Prop) :=
  ⟨(c7_failure_isolation envW "photo.png".data 100 100 false
      [⟨"/a".data, [("photo.png".data, 1)]⟩, ⟨"/b".data, [("other.png".data, 2)]⟩]).1,
    (c7_failure_isolation envW "photo.png".data 100 100 false
      [⟨"/a".data, [("photo.png".data, 1)]⟩, ⟨"/b".data, [("other.png".data, 2)]⟩]).2.1⟩

/-! ### The `/scan-and-resize` request handler (`app.py` lines 80–141) -/

/-- The JSON payload of a scan request; absent keys are `none`
(`data.get(...)` returns `None`). -/
structure ScanRequest where
  folder_path : Option Str
  image_name : Option Str
  width : Option Int
  height : Option Int
  dry_run : Option Bool

/-- The two request-level errors of `scan_and_resize`: HTTP 400 "Missing
required fields" and HTTP 404 "Directory does not exist". -/
inductive ReqError where
  | missingFields
  | notADirectory
deriving DecidableEq

/-- Python truthiness of an optional string (`None` and `""` are falsy),
as tested by `all([...])` on line 90. -/
def truthyS : Option Str → Bool
  | none => false
  | some s => !s.isEmpty

/-- Python truthiness of an optional number (`None` and `0` are falsy). -/
def truthyI : Option Int → Bool
  | none => false
  | some i => i != 0

/-- The JSON result of a completed scan (`app.py` lines 132–139). -/
structure ScanReport where
  dry_run : Bool
  scanned_path : Str
  files_found : Nat
  processed : Nat
  logs : List Str

/-- The `scan_and_resize` handler (`app.py` lines 80–141): validate the request
(missing/falsy fields, then root-is-a-directory), then run the walk.
`world p` is `some tree` when `p` is a directory on disk — the tree below
it in `os.walk` order — and `none` otherwise. -/
def scan_and_resize {α : Type} (env : Env α) (world : Str → Option (FsTree α))
    (req : ScanRequest) : Except ReqError (FsTree α × ScanReport) :=
  if !(truthyS req.folder_path && truthyS req.image_name
      && truthyI req.width && truthyI req.height) then
    Except.error ReqError.missingFields
  else
    match world (req.folder_path.getD []) with
    | none => Except.error ReqError.notADirectory
    | some t =>
      let dr := req.dry_run.getD false
      let o := scanLoop env (req.image_name.getD []) (req.width.getD 0)
        (req.height.getD 0) dr t
      Except.ok (o.tree,
        ⟨dr, req.folder_path.getD [], o.found.length, o.processed, o.logs⟩)

/-! ### Results: C9 -/

/-- C9: request-level validation.  A request in which any of root path,
target file name, width or height is missing is answered with the
"Missing required fields" error, and a request whose fields are all
present (truthy) but whose root path is not an existing directory is
answered with the distinct "Directory does not exist" error; both are
`Except.error` results, carrying no report and no file outcomes. -/
theorem c9_request_errors {α : Type} (env : Env α)
    (world : Str → Option (FsTree α)) (req : ScanRequest) :
    ((req.folder_path = none ∨ req.image_name = none ∨ req.width = none ∨
        req.height = none) →
      scan_and_resize env world req = Except.error ReqError.missingFields) ∧
    ((truthyS req.folder_path && truthyS req.image_name
        && truthyI req.width && truthyI req.height) = true →
      world (req.folder_path.getD []) = none →
      scan_and_resize env world req = Except.error ReqError.notADirectory) := by
  constructor
  · intro hmiss
    have hfalse : (truthyS req.folder_path && truthyS req.image_name
        && truthyI req.width && truthyI req.height) = false := by
      rcases hmiss with h | h | h | h <;> simp [h, truthyS, truthyI]
    unfold scan_and_resize
    rw [hfalse]
    rfl
  · intro htruthy hdir
    unfold scan_and_resize
    rw [htruthy, hdir]
    rfl

/-- Witness for C9: a request lacking its width is rejected as missing
fields; a fully-populated request rooted at a non-directory is rejected
as not a directory. -/
theorem c9_request_errors_witness :
    scan_and_resize envW (fun _ => none)
        ⟨some "/a".data, some "photo.png".data, none, some 100, none⟩
      = Except.error ReqError.missingFields ∧
    scan_and_resize envW (fun _ => none)
        ⟨some "/a".data, some "photo.png".data, some 100, some 100, none⟩
      = Except.error ReqError.notADirectory :=
  ⟨(c9_request_errors envW (fun _ => none)
      ⟨some "/a".data, some "photo.png".data, none, some 100, none⟩).1
      (Or.inr (Or.inr (Or.inl rfl))),
    (c9_request_errors envW (fun _ => none)
      ⟨some "/a".data, some "photo.png".data, some 100, some 100, none⟩).2
      (by decide) rfl⟩

/-! ### Results: C10 -/

/-- C10: an omitted `dry_run` field defaults to a real (non-dry-run) scan.
A request without the field behaves exactly like the same request with
`dry_run = false` (`data.get('dry_run', False)`, line 88); a successful
report echoes `dry_run = false`; and the omission is never treated as a
missing required field. -/
theorem c10_omitted_dry_run_defaults_false {α : Type} (env : Env α)
    (world : Str → Option (FsTree α)) (req : ScanRequest)
    (hnone : req.dry_run = none) :
    scan_and_resize env world req
        = scan_and_resize env world { req with dry_run := some false } ∧
    (∀ t rep, scan_and_resize env world req = Except.ok (t, rep) →
      rep.dry_run = false) ∧
    ((truthyS req.folder_path && truthyS req.image_name
        && truthyI req.width && truthyI req.height) = true →
      scan_and_resize env world req ≠ Except.error ReqError.missingFields) := by
  refine ⟨?_, ?_, ?_⟩
  · unfold scan_and_resize
    rw [hnone]
    rfl
  · intro t rep h
    unfold scan_and_resize at h
    rw [hnone] at h
    by_cases hc : (truthyS req.folder_path && truthyS req.image_name
        && truthyI req.width && truthyI req.height) = true
    · rw [hc] at h
      simp only [Bool.not_true, Bool.false_eq_true, if_false] at h
      cases hw : world (req.folder_path.getD []) with
      | none => rw [hw] at h; cases h
      | some tr =>
        rw [hw] at h
        simp only [Option.getD_none] at h
        have h1 : ((scanLoop env (req.image_name.getD []) (req.width.getD 0)
              (req.height.getD 0) false tr).tree,
            (⟨false, req.folder_path.getD [],
              (scanLoop env (req.image_name.getD []) (req.width.getD 0)
                (req.height.getD 0) false tr).found.length,
              (scanLoop env (req.image_name.getD []) (req.width.getD 0)
                (req.height.getD 0) false tr).processed,
              (scanLoop env (req.image_name.getD []) (req.width.getD 0)
                (req.height.getD 0) false tr).logs⟩ : ScanReport)) = (t, rep) := by
          injection h
        have h2 := congrArg (fun x => x.2.dry_run) h1
        simpa using h2.symm
    · simp only [Bool.not_eq_true] at hc
      rw [hc] at h
      simp only [Bool.not_false, if_true] at h
      cases h
  · intro htruthy hcontra
    unfold scan_and_resize at hcontra
    rw [htruthy] at hcontra
    simp only [Bool.not_true, Bool.false_eq_true, if_false] at hcontra
    cases hw : world (req.folder_path.getD []) with
    | none => rw [hw] at hcontra; cases hcontra
    | some tr => rw [hw] at hcontra; cases hcontra

/-- Witness for C10: a fully-populated request that omits `dry_run`,
against a world holding one directory with one match. -/
theorem c10_omitted_dry_run_defaults_false_witness :
    scan_and_resize envW (fun _ => some [⟨"/r".data, [("photo.png".data, 1)]⟩])
        ⟨some "/r".data, some "photo.png".data, some 100, some 100, none⟩
      = scan_and_resize envW (fun _ => some [⟨"/r".data, [("photo.png".data, 1)]⟩])
        ⟨some "/r".data, some "photo.png".data, some 100, some 100, some false⟩ ∧
    scan_and_resize envW (fun _ => some [⟨"/r".data, [("photo.png".data, 1)]⟩])
        ⟨some "/r".data, some "photo.png".data, some 100, some 100, none⟩
      ≠ Except.error ReqError.missingFields :=
  ⟨(c10_omitted_dry_run_defaults_false envW
      (fun _ => some [⟨"/r".data, [("photo.png".data, 1)]⟩])
      ⟨some "/r".data, some "photo.png".data, some 100, some 100, none⟩ rfl).1,
    (c10_omitted_dry_run_defaults_false envW
      (fun _ => some [⟨"/r".data, [("photo.png".data, 1)]⟩])
      ⟨some "/r".data, some "photo.png".data, some 100, some 100, none⟩ rfl).2.2
      (by decide)⟩

theorem process_image_dry_run {α : Type} (env : Env α) (dirPath fname : Str)
    (files : List (Str × α)) (w h : Int) :
    process_image env dirPath fname files w h true =
      (true, "[DRY RUN] Would backup to ".data
        ++ basename (pjoin dirPath (fname ++ SEP ++ env.ts (pjoin dirPath fname)))
        ++ " and resize to ".data ++ (toString w).data ++ "x".data
        ++ (toString h).data, files) := by
  unfold process_image
  simp

theorem scanLoop_dry_run_pure {α : Type} (env : Env α) (target : Str)
    (w h : Int) (t : FsTree α) :
    (scanLoop env target w h true t).tree = t ∧
    (scanLoop env target w h true t).processed =
      (t.filter (fun d => hasMatch target d && !hasLocalBackup target d)).length := by
  induction t with
  | nil => exact ⟨rfl, rfl⟩
  | cons d rest ih =>
    have hstep : (scanStep env target w h true d).1 = d ∧
        (scanStep env target w h true d).2.2.2 =
          (if (hasMatch target d && !hasLocalBackup target d) = true then 1 else 0) := by
      by_cases hm : hasMatch target d
      · by_cases hb : hasLocalBackup target d
        · rw [scanStep_skip env target w h true d hm hb]
          simp [hm, hb]
        · simp only [Bool.not_eq_true] at hb
          rw [scanStep_process env target w h true d hm hb]
          rw [process_image_dry_run]
          simp [hm, hb]
      · simp only [Bool.not_eq_true] at hm
        rw [scanStep_no_match env target w h true d hm]
        simp [hm]
    constructor
    · simp only [scanLoop]
      rw [hstep.1, ih.1]
    · simp only [scanLoop, List.filter_cons]
      rw [hstep.2, ih.2]
      by_cases hp : (hasMatch target d && !hasLocalBackup target d) = true
      · simp [hp, Nat.add_comm]
      · simp only [Bool.not_eq_true] at hp
        simp [hp]

/-! ### Results: C4 -/

/-- C4: dry-run purity.  For every request with `dry_run = true` (fields
present, root a directory), the call returns the tree unchanged — no file
is created, copied or modified — yet the report still counts as
`processed` exactly the directories holding the target without a local
backup. -/
theorem c4_dry_run_purity {α : Type} (env : Env α)
    (world : Str → Option (FsTree α)) (req : ScanRequest) (t : FsTree α)
    (hdry : req.dry_run = some true)
    (hw : world (req.folder_path.getD []) = some t)
    (htruthy : (truthyS req.folder_path && truthyS req.image_name
        && truthyI req.width && truthyI req.height) = true) :
    scan_and_resize env world req = Except.ok (t,
      ⟨true, req.folder_path.getD [],
        (scanLoop env (req.image_name.getD []) (req.width.getD 0)
          (req.height.getD 0) true t).found.length,
        (t.filter (fun d => hasMatch (req.image_name.getD []) d
          && !hasLocalBackup (req.image_name.getD []) d)).length,
        (scanLoop env (req.image_name.getD []) (req.width.getD 0)
          (req.height.getD 0) true t).logs⟩) := by
  have hp := scanLoop_dry_run_pure env (req.image_name.getD [])
    (req.width.getD 0) (req.height.getD 0) t
  unfold scan_and_resize
  rw [htruthy]
  simp only [Bool.not_true, Bool.false_eq_true, if_false]
  rw [hw, hdry]
  simp only [Option.getD_some]
  rw [hp.1, hp.2]

/-- Witness for C4: a dry-run request over a world with one match and one
unrelated directory leaves the tree untouched and reports one processed
file. -/
theorem c4_dry_run_purity_witness :
    scan_and_resize envW
        (fun _ => some [⟨"/r".data, [("photo.png".data, 1)]⟩,
          ⟨"/r/b".data, [("other.png".data, 2)]⟩])
        ⟨some "/r".data, some "photo.png".data, some 100, some 100, some true⟩
      = Except.ok ([⟨"/r".data, [("photo.png".data, 1)]⟩,
          ⟨"/r/b".data, [("other.png".data, 2)]⟩],
        ⟨true, "/r".data,
          (scanLoop envW "photo.png".data 100 100 true
            [⟨"/r".data, [("photo.png".data, 1)]⟩,
              ⟨"/r/b".data, [("other.png".data, 2)]⟩]).found.length,
          ([⟨"/r".data, [("photo.png".data, 1)]⟩,
              ⟨"/r/b".data, [("other.png".data, 2)]⟩].filter
            (fun d => hasMatch "photo.png".data d
              && !hasLocalBackup "photo.png".data d)).length,
          (scanLoop envW "photo.png".data 100 100 true
            [⟨"/r".data, [("photo.png".data, 1)]⟩,
              ⟨"/r/b".data, [("other.png".data, 2)]⟩]).logs⟩) :=
  c4_dry_run_purity envW
    (fun _ => some [⟨"/r".data, [("photo.png".data, 1)]⟩,
      ⟨"/r/b".data, [("other.png".data, 2)]⟩])
    ⟨some "/r".data, some "photo.png".data, some 100, some 100, some true⟩
    [⟨"/r".data, [("photo.png".data, 1)]⟩, ⟨"/r/b".data, [("other.png".data, 2)]⟩]
    rfl rfl (by decide)

theorem process_image_copy_error {α : Type} (env : Env α) (dirPath fname : Str)
    (files : List (Str × α)) (w h : Int) (e : Str)
    (hc : env.copyErr (pjoin dirPath fname) = some e) :
    process_image env dirPath fname files w h false = (false, e, files) := by
  unfold process_image
  simp only [Bool.false_eq_true, if_false]
  rw [hc]

theorem process_image_transform_error {α : Type} (env : Env α)
    (dirPath fname : Str) (files : List (Str × α)) (w h : Int) (c : α) (e : Str)
    (hc : env.copyErr (pjoin dirPath fname) = none)
    (hl : lookupF files fname = some c)
    (hr : env.resize w h c = Except.error e) :
    process_image env dirPath fname files w h false =
      (false, e,
        insertF files (fname ++ SEP ++ env.ts (pjoin dirPath fname)) c) := by
  unfold process_image
  simp only [Bool.false_eq_true, if_false]
  rw [hc, hl]
  dsimp only
  rw [hr]

theorem process_image_success {α : Type} (env : Env α)
    (dirPath fname : Str) (files : List (Str × α)) (w h : Int) (c c2 : α)
    (hc : env.copyErr (pjoin dirPath fname) = none)
    (hl : lookupF files fname = some c)
    (hr : env.resize w h c = Except.ok c2) :
    process_image env dirPath fname files w h false =
      (true, "Success (Backup: ".data
        ++ basename (pjoin dirPath (fname ++ SEP ++ env.ts (pjoin dirPath fname)))
        ++ ")".data,
        insertF (insertF files (fname ++ SEP ++ env.ts (pjoin dirPath fname)) c)
          fname c2) := by
  unfold process_image
  simp only [Bool.false_eq_true, if_false]
  rw [hc, hl]
  dsimp only
  rw [hr]

/-- A name never equals itself extended by the separator and a timestamp. -/
theorem ne_name_sep_append (n t : Str) : n ≠ n ++ SEP ++ t := by
  intro h
  have := congrArg List.length h
  simp [SEP] at this

/-! ### Results: C5 -/

/-- C5: backup precedes mutation.  In non-dry-run processing: when the
backup copy raises, the outcome is `failed` with the error text and the
directory is untouched (no transform happened); when the copy succeeds and
the resize raises, the outcome is `failed` with the error text, the
freshly written backup stays on disk (not rolled back) and the original is
unmodified; when both succeed the final state still holds the backup with
the pre-transform content — the original is only ever mutated after the
backup exists. -/
theorem c5_backup_precedes_mutation {α : Type} (env : Env α)
    (dirPath fname : Str) (files : List (Str × α)) (w h : Int) :
    (∀ e, env.copyErr (pjoin dirPath fname) = some e →
      process_image env dirPath fname files w h false = (false, e, files)) ∧
    (∀ c e, env.copyErr (pjoin dirPath fname) = none →
      lookupF files fname = some c →
      env.resize w h c = Except.error e →
      process_image env dirPath fname files w h false =
        (false, e, insertF files (fname ++ SEP ++ env.ts (pjoin dirPath fname)) c) ∧
      lookupF (process_image env dirPath fname files w h false).2.2
          (fname ++ SEP ++ env.ts (pjoin dirPath fname)) = some c ∧
      lookupF (process_image env dirPath fname files w h false).2.2 fname = some c) ∧
    (∀ c c2, env.copyErr (pjoin dirPath fname) = none →
      lookupF files fname = some c →
      env.resize w h c = Except.ok c2 →
      process_image env dirPath fname files w h false =
        (true, "Success (Backup: ".data
          ++ basename (pjoin dirPath (fname ++ SEP ++ env.ts (pjoin dirPath fname)))
          ++ ")".data,
          insertF (insertF files (fname ++ SEP ++ env.ts (pjoin dirPath fname)) c)
            fname c2) ∧
      lookupF (process_image env dirPath fname files w h false).2.2
          (fname ++ SEP ++ env.ts (pjoin dirPath fname)) = some c) := by
  refine ⟨fun e hc => process_image_copy_error env dirPath fname files w h e hc,
    fun c e hc hl hr => ?_, fun c c2 hc hl hr => ?_⟩
  · have heq := process_image_transform_error env dirPath fname files w h c e hc hl hr
    refine ⟨heq, ?_, ?_⟩
    · rw [heq]
      exact lookupF_insertF_self files _ c
    · rw [heq]
      dsimp only
      rw [lookupF_insertF_ne files _ fname c (Ne.symm (ne_name_sep_append fname _))]
      exact hl
  · have heq := process_image_success env dirPath fname files w h c c2 hc hl hr
    refine ⟨heq, ?_⟩
    rw [heq]
    dsimp only
    rw [lookupF_insertF_ne _ fname
      (fname ++ SEP ++ env.ts (pjoin dirPath fname)) c2
      (ne_name_sep_append fname (env.ts (pjoin dirPath fname)))]
    exact lookupF_insertF_self files _ c

/-- An environment whose backup copy always raises. -/
def envCopyFail : Env Nat :=
  ⟨fun _ => "20240101120000".data,
    fun _ => some "Permission denied".data, fun _ _ c => Except.ok c⟩

/-- An environment whose resize always raises. -/
def envResizeFail : Env Nat :=
  ⟨fun _ => "20240101120000".data, fun _ => none,
    fun _ _ _ => Except.error "cannot identify image file".data⟩

/-- Witness for C5: under a failing copy nothing changes; under a failing
resize the backup is on disk with the original content and the original is
untouched; under success the backup also survives. -/
theorem c5_backup_precedes_mutation_witness :
    process_image envCopyFail "/a".data "photo.png".data [("photo.png".data, 7)]
        100 100 false = (false, "Permission denied".data, [("photo.png".data, 7)]) ∧
    lookupF (process_image envResizeFail "/a".data "photo.png".data
        [("photo.png".data, 7)] 100 100 false).2.2
      ("photo.png".data ++ SEP
        ++ envResizeFail.ts (pjoin "/a".data "photo.png".data)) = some 7 ∧
    lookupF (process_image envResizeFail "/a".data "photo.png".data
        [("photo.png".data, 7)] 100 100 false).2.2 "photo.png".data = some 7 ∧
    lookupF (process_image envW "/a".data "photo.png".data
        [("photo.png".data, 7)] 100 100 false).2.2
      ("photo.png".data ++ SEP
        ++ envW.ts (pjoin "/a".data "photo.png".data)) = some 7 :=
  ⟨(c5_backup_precedes_mutation envCopyFail "/a".data "photo.png".data
      [("photo.png".data, 7)] 100 100).1 "Permission denied".data rfl,
    ((c5_backup_precedes_mutation envResizeFail "/a".data "photo.png".data
      [("photo.png".data, 7)] 100 100).2.1 7 "cannot identify image file".data
      rfl (by decide) rfl).2.1,
    ((c5_backup_precedes_mutation envResizeFail "/a".data "photo.png".data
      [("photo.png".data, 7)] 100 100).2.1 7 "cannot identify image file".data
      rfl (by decide) rfl).2.2,
    ((c5_backup_precedes_mutation envW "/a".data "photo.png".data
      [("photo.png".data, 7)] 100 100).2.2 7 7 rfl (by decide) rfl).2⟩

/-! ### BackupCatalog (`app.py` lines 143–164) -/

/-- One record of the `/scan-backups` response. -/
structure BackupRecord where
  backup_path : Str
  original_path : Str
  filename : Str
deriving DecidableEq

/-- The inner `for file in files` loop of `scan_backups` (`app.py` lines
154–162) over one directory: append one record for every file whose name
contains `".backup_"`. -/
def scanBackupsDir (dirPath : Str) : List Str → List BackupRecord
  | [] => []
  | f :: rest =>
    if containsSub SEP f then
      ⟨pjoin dirPath f, pjoin dirPath (original_from f), f⟩ :: scanBackupsDir dirPath rest
    else
      scanBackupsDir dirPath rest

/-- The `scan_backups` handler (`app.py` lines 143–164): walk the whole tree and
inventory every backup candidate. -/
def scan_backups {α : Type} : FsTree α → List BackupRecord
  | [] => []
  | d :: rest => scanBackupsDir d.path (d.files.map Prod.fst) ++ scan_backups rest

theorem scanBackupsDir_eq (dirPath : Str) (names : List Str) :
    scanBackupsDir dirPath names =
      (names.filter (fun f => containsSub SEP f)).map
        (fun f => ⟨pjoin dirPath f, pjoin dirPath (original_from f), f⟩) := by
  induction names with
  | nil => rfl
  | cons f rest ih =>
    by_cases hf : containsSub SEP f
    · simp [scanBackupsDir, List.filter_cons, hf, ih]
    · simp only [Bool.not_eq_true] at hf
      simp [scanBackupsDir, List.filter_cons, hf, ih]

/-! ### Results: C8 -/

/-- C8: the backup catalog is a substring-filtered inventory.  Walking the
whole tree, every file whose name contains `".backup_"` anywhere yields
exactly one record — `backup_path` is the directory joined with the file
name, `filename` the file name, and `original_path` the directory joined
with the portion of the name left of the first `".backup_"` — and files
without the marker yield nothing. -/
theorem c8_catalog_inventory {α : Type} (t : FsTree α) :
    scan_backups t =
      t.flatMap (fun d =>
        ((d.files.map Prod.fst).filter (fun f => containsSub SEP f)).map
          (fun f => ⟨pjoin d.path f, pjoin d.path (original_from f), f⟩)) := by
  induction t with
  | nil => rfl
  | cons d rest ih =>
    simp only [scan_backups, List.flatMap_cons, ih]
    rw [scanBackupsDir_eq]

theorem scanLoop_no_match {α : Type} (env : Env α) (target : Str) (w h : Int)
    (dry_run : Bool) (t : FsTree α) (hn : ∀ d ∈ t, hasMatch target d = false) :
    scanLoop env target w h dry_run t = ⟨t, [], [], 0⟩ := by
  induction t with
  | nil => rfl
  | cons d rest ih =>
    have hd := hn d (List.mem_cons_self d rest)
    have hrest := ih (fun d' hd' => hn d' (List.mem_cons_of_mem d hd'))
    simp only [scanLoop, scanStep_no_match env target w h dry_run d hd, hrest]
    simp

theorem hasMatch_of_mem {α : Type} (target : Str) (d : DirEntry α)
    (hmem : target ∈ d.files.map Prod.fst) : hasMatch target d = true := by
  unfold hasMatch
  exact decide_eq_true hmem

theorem hasLocalBackup_of_mem {α : Type} (target bname : Str) (d : DirEntry α)
    (hmem : bname ∈ d.files.map Prod.fst)
    (hsw : startsWith (target ++ SEP) bname = true) :
    hasLocalBackup target d = true := by
  unfold hasLocalBackup
  rw [List.any_eq_true]
  exact ⟨bname, hmem, hsw⟩

theorem mem_fst_of_lookupF {α : Type} (l : List (Str × α)) (n : Str) (c : α)
    (h : lookupF l n = some c) : n ∈ l.map Prod.fst := by
  induction l with
  | nil => cases h
  | cons e r ih =>
    obtain ⟨a, w⟩ := e
    by_cases ha : a = n
    · subst ha
      simp only [List.map_cons]
      exact List.mem_cons_self _ _
    · simp only [lookupF, if_neg ha] at h
      simp only [List.map_cons, List.mem_cons]
      exact Or.inr (ih h)

/-! ### Results: C3 -/

/-- C3: idempotent rescanning.  On a tree whose only directory holding the
target is `d`, with no backup beside it, a first non-dry-run scan (with a
succeeding copy and resize) reports the file processed (`processed = 1`,
one `[OK]` log entry); a second identical scan of the resulting tree
leaves it unchanged and reports the same file skipped (`processed = 0`,
one `[SKIPPED]` entry); `files_found` is 1 both times. -/
theorem c3_idempotent_rescan {α : Type} (env : Env α) (target : Str)
    (w h : Int) (t₁ t₂ : FsTree α) (d : DirEntry α) (c c2 : α)
    (h₁ : ∀ d' ∈ t₁, hasMatch target d' = false)
    (h₂ : ∀ d' ∈ t₂, hasMatch target d' = false)
    (hb : hasLocalBackup target d = false)
    (hcopy : env.copyErr (pjoin d.path target) = none)
    (hlook : lookupF d.files target = some c)
    (hres : env.resize w h c = Except.ok c2) :
    (scanLoop env target w h false (t₁ ++ d :: t₂)).processed = 1 ∧
    (scanLoop env target w h false (t₁ ++ d :: t₂)).found.length = 1 ∧
    (∃ lg, (scanLoop env target w h false (t₁ ++ d :: t₂)).logs = [lg] ∧
      startsWith "[OK] ".data lg = true) ∧
    (scanLoop env target w h false
        (scanLoop env target w h false (t₁ ++ d :: t₂)).tree).tree
      = (scanLoop env target w h false (t₁ ++ d :: t₂)).tree ∧
    (scanLoop env target w h false
        (scanLoop env target w h false (t₁ ++ d :: t₂)).tree).processed = 0 ∧
    (scanLoop env target w h false
        (scanLoop env target w h false (t₁ ++ d :: t₂)).tree).found.length = 1 ∧
    (scanLoop env target w h false
        (scanLoop env target w h false (t₁ ++ d :: t₂)).tree).logs
      = ["[SKIPPED] ".data ++ pjoin d.path target
          ++ " -> Skipped (Backup already exists)".data] := by
  have hm : hasMatch target d = true :=
    hasMatch_of_mem target d (mem_fst_of_lookupF d.files target c hlook)
  have epi := process_image_success env d.path target d.files w h c c2 hcopy hlook hres
  have e1 := scanLoop_no_match env target w h false t₁ h₁
  have e2 := scanLoop_no_match env target w h false t₂ h₂
  have estep1 : scanStep env target w h false d =
      ((⟨d.path, insertF (insertF d.files
          (target ++ SEP ++ env.ts (pjoin d.path target)) c) target c2⟩ : DirEntry α),
        ["[OK] ".data ++ pjoin d.path target ++ " -> ".data
          ++ ("Success (Backup: ".data
            ++ basename (pjoin d.path (target ++ SEP ++ env.ts (pjoin d.path target)))
            ++ ")".data)],
        [pjoin d.path target], 1) := by
    rw [scanStep_process env target w h false d hm hb, epi]
    simp
  have run1 : scanLoop env target w h false (t₁ ++ d :: t₂) =
      ⟨t₁ ++ (⟨d.path, insertF (insertF d.files
          (target ++ SEP ++ env.ts (pjoin d.path target)) c) target c2⟩ : DirEntry α)
          :: t₂,
        ["[OK] ".data ++ pjoin d.path target ++ " -> ".data
          ++ ("Success (Backup: ".data
            ++ basename (pjoin d.path (target ++ SEP ++ env.ts (pjoin d.path target)))
            ++ ")".data)],
        [pjoin d.path target], 1⟩ := by
    rw [scanLoop_append, e1]
    simp only [scanLoop]
    rw [estep1, e2]
    simp
  have hm2 : hasMatch target (⟨d.path, insertF (insertF d.files
      (target ++ SEP ++ env.ts (pjoin d.path target)) c) target c2⟩ : DirEntry α)
      = true := by
    apply hasMatch_of_mem
    rw [mem_fst_insertF]
    exact Or.inl rfl
  have hb2 : hasLocalBackup target (⟨d.path, insertF (insertF d.files
      (target ++ SEP ++ env.ts (pjoin d.path target)) c) target c2⟩ : DirEntry α)
      = true := by
    apply hasLocalBackup_of_mem target (target ++ SEP ++ env.ts (pjoin d.path target))
    · rw [mem_fst_insertF]
      refine Or.inr ?_
      rw [mem_fst_insertF]
      exact Or.inl rfl
    · exact startsWith_self_append _ _
  have estep2 := scanStep_skip env target w h false
    (⟨d.path, insertF (insertF d.files
      (target ++ SEP ++ env.ts (pjoin d.path target)) c) target c2⟩ : DirEntry α)
    hm2 hb2
  have run2 : scanLoop env target w h false
      (t₁ ++ (⟨d.path, insertF (insertF d.files
          (target ++ SEP ++ env.ts (pjoin d.path target)) c) target c2⟩ : DirEntry α)
        :: t₂) =
      ⟨t₁ ++ (⟨d.path, insertF (insertF d.files
          (target ++ SEP ++ env.ts (pjoin d.path target)) c) target c2⟩ : DirEntry α)
          :: t₂,
        ["[SKIPPED] ".data ++ pjoin d.path target
          ++ " -> Skipped (Backup already exists)".data],
        [pjoin d.path target], 0⟩ := by
    rw [scanLoop_append, e1]
    simp only [scanLoop]
    rw [estep2, e2]
    simp
  rw [run1]
  dsimp only
  rw [run2]
  refine ⟨rfl, rfl, ⟨_, rfl, ?_⟩, rfl, rfl, rfl, rfl⟩
  rw [List.append_assoc, List.append_assoc]
  exact startsWith_self_append _ _

/-- Witness for C3: a one-directory tree holding exactly `photo.png`,
scanned twice with an always-succeeding environment. -/
theorem c3_idempotent_rescan_witness :
    (scanLoop envW "photo.png".data 100 100 false
      ([] ++ (⟨"/a".data, [("photo.png".data, 1)]⟩ : DirEntry Nat) :: [])).processed
      = 1 ∧
    (scanLoop envW "photo.png".data 100 100 false
      (scanLoop envW "photo.png".data 100 100 false
        ([] ++ (⟨"/a".data, [("photo.png".data, 1)]⟩ : DirEntry Nat) :: [])).tree).processed
      = 0 :=
  ⟨(c3_idempotent_rescan envW "photo.png".data 100 100 [] []
      (⟨"/a".data, [("photo.png".data, 1)]⟩ : DirEntry Nat) 1 1
      (fun d' hd' => absurd hd' (List.not_mem_nil d'))
      (fun d' hd' => absurd hd' (List.not_mem_nil d'))
      (by decide) rfl (by decide) rfl).1,
    (c3_idempotent_rescan envW "photo.png".data 100 100 [] []
      (⟨"/a".data, [("photo.png".data, 1)]⟩ : DirEntry Nat) 1 1
      (fun d' hd' => absurd hd' (List.not_mem_nil d'))
      (fun d' hd' => absurd hd' (List.not_mem_nil d'))
      (by decide) rfl (by decide) rfl).2.2.2.2.1⟩
